import Mathlib

/-!
Verification of the TorChat onion-routing core (src/onion_proxy/onion_proxy.go,
src/onion_router/onion_router.go) against its natural-language specification.

Bytes are modelled as `List Nat`.  The AES block cipher itself lives in Go's
standard library, so it is abstracted as a parameter
`E : List Nat → List Nat → List Nat` (key, input block ↦ output block); the CFB
feedback mode, which the source applies through `cipher.NewCFBEncrypter` /
`cipher.NewCFBDecrypter` with a fresh IV prefixed to each ciphertext, is
embedded concretely below.  The packages `../shared` and `../util` are part of
the repository but absent from src/; the definitions that stand in for them are
marked `Modelled from the spec:` and follow the spec's data model (§3, §6) and
error-handling design (§7).
-/

set_option maxRecDepth 8000

/-- AES block size in bytes, `aes.BlockSize` in the source. -/
def blockSize : Nat := 16

/-- Fuel-indexed CFB encryption.  Mirrors Go's `cipher.NewCFBEncrypter`
followed by `XORKeyStream`: the keystream block is `E key register`, the
ciphertext chunk is plaintext XOR keystream, and the register of the next
block is the previous ciphertext chunk.  The fuel is an upper bound on the
number of chunks; callers pass the plaintext length, which always suffices. -/
def cfbEncryptAux (E : List Nat → List Nat → List Nat) (key : List Nat) :
    Nat → List Nat → List Nat → List Nat
  | 0, _, _ => []
  | fuel + 1, reg, p =>
    if p = [] then []
    else
      let ks := E key reg
      let c := List.zipWith Nat.xor (p.take blockSize) ks
      c ++ cfbEncryptAux E key fuel c (p.drop blockSize)

/-- CFB encryption of a plaintext under a key and initial register (the IV). -/
def cfbEncrypt (E : List Nat → List Nat → List Nat) (key reg p : List Nat) : List Nat :=
  cfbEncryptAux E key p.length reg p

/-- Fuel-indexed CFB decryption, mirroring `cipher.NewCFBDecrypter`: the
keystream is again `E key register`, and the register of the next block is the
previous ciphertext chunk. -/
def cfbDecryptAux (E : List Nat → List Nat → List Nat) (key : List Nat) :
    Nat → List Nat → List Nat → List Nat
  | 0, _, _ => []
  | fuel + 1, reg, c =>
    if c = [] then []
    else
      let ks := E key reg
      let chunk := c.take blockSize
      let p := List.zipWith Nat.xor chunk ks
      p ++ cfbDecryptAux E key fuel chunk (c.drop blockSize)

/-- CFB decryption of a ciphertext under a key and initial register (the IV). -/
def cfbDecrypt (E : List Nat → List Nat → List Nat) (key reg c : List Nat) : List Nat :=
  cfbDecryptAux E key c.length reg c

/-- Modelled from the spec: `shared.Onion` (package shared is not under src/),
the OnionLayer of §3: payload bytes, exit flag, and the next hop's address.
Field names follow the source's uses (`Data`, `IsExitNode`, `NextAddress`). -/
structure Onion where
  Data : List Nat
  IsExitNode : Bool
  NextAddress : String
  deriving DecidableEq

/-- Byte view of a string, used by the serialization model. -/
def natsOfString (s : String) : List Nat :=
  s.toList.map Char.toNat

/-- Inverse of `natsOfString`. -/
def stringOfNats (l : List Nat) : String :=
  (l.map Char.ofNat).asString

/-- Modelled from the spec: `json.Marshal` of a `shared.Onion` value.  An
injective byte encoding standing in for the JSON wire form: exit flag, payload
length, payload bytes, then the address bytes. -/
def marshalOnion (o : Onion) : List Nat :=
  (if o.IsExitNode then 1 else 0) :: o.Data.length :: (o.Data ++ natsOfString o.NextAddress)

/-- Modelled from the spec: `json.Unmarshal` into a `shared.Onion`, returning
`none` on input that does not parse (§4.4's `DecodeError` condition). -/
def unmarshalOnion : List Nat → Option Onion
  | e :: n :: rest =>
    if e ≤ 1 ∧ n ≤ rest.length then
      some { Data := rest.take n, IsExitNode := e = 1, NextAddress := stringOfNats (rest.drop n) }
    else none
  | _ => none

/-- Zero value of `shared.Onion`, what Go's `json.Unmarshal` leaves behind
when deserialization fails and the error is ignored. -/
def zeroOnion : Onion :=
  { Data := [], IsExitNode := false, NextAddress := "" }

/-- Modelled from the spec: `shared.Cell` (§3, §6): circuit id plus the
ciphertext payload exchanged between adjacent relays. -/
structure Cell where
  CircuitId : Nat
  Data : List Nat
  deriving DecidableEq

/-- Modelled from the spec: `shared.CircuitInfo` (§6): circuit id plus the
asymmetrically wrapped symmetric key sent to one relay during key exchange. -/
structure CircuitInfo where
  CircuitId : Nat
  EncryptedSharedKey : List Nat
  deriving DecidableEq

/-- Modelled from the spec: `shared.ChatMessage`, the application payload the
proxy serializes before onionizing. -/
structure ChatMessage where
  IRCServerAddr : String
  Username : String
  Message : String
  deriving DecidableEq

/-- Modelled from the spec: `json.Marshal` of a `shared.ChatMessage`; a
length-prefixed concatenation of the three string fields. -/
def marshalChatMessage (c : ChatMessage) : List Nat :=
  (natsOfString c.IRCServerAddr).length :: (natsOfString c.Username).length ::
    (natsOfString c.IRCServerAddr ++ natsOfString c.Username ++ natsOfString c.Message)

/-- The proxy's `orInfo` record for one hop: address, RSA public key (opaque
id), and the AES key shared with that hop. -/
structure OrInfo where
  address : String
  pubKey : Nat
  sharedKey : List Nat
  deriving DecidableEq

/-- Layering loop of `OnionizeData` (onion_proxy.go:210-253).  The Go loop
walks `hopNum` from the last hop down to 0, wrapping the previously built
ciphertext; this recursion builds the same layers top-down: the layer of hop
`i` (the head of `hops`) carries the layer of hop `i+1` as payload.  The exit
layer (last hop) carries the core data with `IsExitNode` set; every other
layer carries its successor's address.  `ivs i` is the fresh random IV drawn
for hop `i`, prefixed to that layer's ciphertext.  With no hops the loop body
never runs and the core data is returned unchanged. -/
def onionizeAux (E : List Nat → List Nat → List Nat) (ivs : Nat → List Nat) :
    List OrInfo → Nat → List Nat → List Nat
  | [], _, coreData => coreData
  | h :: rest, i, coreData =>
    let inner := onionizeAux E ivs rest (i + 1) coreData
    let layer : Onion :=
      match rest with
      | [] => { Data := inner, IsExitNode := true, NextAddress := "" }
      | h2 :: _ => { Data := inner, IsExitNode := false, NextAddress := h2.address }
    let iv := ivs i
    iv ++ cfbEncrypt E h.sharedKey iv (marshalOnion layer)

/-- `OnionizeData` (onion_proxy.go:210-253): recursively encrypt the core data
under each hop's shared key, guard hop outermost. -/
def OnionizeData (E : List Nat → List Nat → List Nat) (ivs : Nat → List Nat)
    (hops : List OrInfo) (coreData : List Nat) : List Nat :=
  onionizeAux E ivs hops 0 coreData

/-- Single-layer decryption as a relay performs it (onion_router.go:210-216):
split off the IV, CFB-decrypt the remainder, deserialize one `Onion`.
Returns `none` when the decrypted bytes do not parse. -/
def decryptOneLayer (E : List Nat → List Nat → List Nat) (key ct : List Nat) : Option Onion :=
  unmarshalOnion (cfbDecrypt E key (ct.take blockSize) (ct.drop blockSize))

/-- Sequential unwrapping of an onion along a circuit, applying
`decryptOneLayer` once per hop in hop order with that hop's key and recursing
into the decoded payload.  Produces the list of decoded layers. -/
def unwrapChain (E : List Nat → List Nat → List Nat) :
    List OrInfo → List Nat → Option (List Onion)
  | [], _ => some []
  | h :: rest, ct =>
    match decryptOneLayer E h.sharedKey ct with
    | none => none
    | some o => (unwrapChain E rest o.Data).map (fun ls => o :: ls)

/-- Observable outcome of one `SendMessage` call on the proxy: a Go runtime
panic, a process exit through `util.HandleFatalError`, or a completed
blocking transmission of the cell to the guard hop (on which path the source
unconditionally sets `*ack = true` and returns the guard call's nil error). -/
inductive SendOutcome where
  | panicked (msg : String)
  | fatal (msg : String)
  | sent (guardAddr : String) (cell : Cell) (ack : Bool) (err : Option String)
  deriving DecidableEq

/-- `SendChatMessageOnion` (onion_proxy.go:255-269): build the cell, then
look up the guard hop as `op.ORInfoByHopNum[0]` — a Go map lookup, so with no
entry it yields a nil `*orInfo` and the subsequent `.address` dereference
panics — then `DialOR` it (fatal on dial failure via `util.HandleFatalError`)
and issue the blocking `ORServer.DecryptChatMessageCell` call, whose error is
also routed through `util.HandleFatalError` before being returned. -/
def sendChatMessageOnion (dialOK : String → Bool)
    (net : String → Cell → Except String Bool)
    (hops : List OrInfo) (onionToSend : List Nat) (circId : Nat) : SendOutcome :=
  let cell : Cell := { CircuitId := circId, Data := onionToSend }
  match hops[0]? with
  | none =>
    SendOutcome.panicked "runtime error: invalid memory address or nil pointer dereference"
  | some guard =>
    if dialOK guard.address then
      match net guard.address cell with
      | Except.error _ => SendOutcome.fatal "Could not send onion to guard node"
      | Except.ok _ => SendOutcome.sent guard.address cell true none
    else SendOutcome.fatal "Could not dial onion router"

/-- `SendMessage` (onion_proxy.go:194-208): serialize the chat message,
onionize it over the current hop table, and hand the result to
`SendChatMessageOnion` under the proxy's current circuit id. -/
def sendMessage (E : List Nat → List Nat → List Nat) (ivs : Nat → List Nat)
    (dialOK : String → Bool) (net : String → Cell → Except String Bool)
    (hops : List OrInfo) (circuitId : Nat)
    (ircServerAddr username message : String) : SendOutcome :=
  sendChatMessageOnion dialOK net hops
    (OnionizeData E ivs hops
      (marshalChatMessage
        { IRCServerAddr := ircServerAddr, Username := username, Message := message }))
    circuitId

/-- Result of one outbound relay RPC as seen by the calling relay:
either the process dies in `DialOR` (onion_router.go:197-201, whose error is
routed through `util.HandleFatalError`), or the call returns with an optional
error from the remote side. -/
inductive CallResult where
  | fatal (msg : String)
  | ret (err : Option String)
  deriving DecidableEq

/-- `RelayChatMessageOnion` (onion_router.go:183-195): build a cell with the
same circuit id and the inner payload, dial the next relay (fatal on dial
failure), perform the blocking call, and return its error.  The network is
abstracted by `net : address → cell → Except error ack`. -/
def relayChatMessageOnion (dialOK : String → Bool)
    (net : String → Cell → Except String Bool)
    (nextORAddress : String) (nextOnion : List Nat) (circuitId : Nat) : CallResult :=
  if dialOK nextORAddress then
    match net nextORAddress { CircuitId := circuitId, Data := nextOnion } with
    | Except.error e => CallResult.ret (some e)
    | Except.ok _ => CallResult.ret none
  else CallResult.fatal "Could not dial OR"

/-- Observable outcome of `DecryptChatMessageCell`: a Go runtime panic, a
process exit through `util.HandleFatalError`, or a normal return carrying the
forwarding calls made, the exit deliveries made, the ack written, and the
error value returned to the RPC caller. -/
inductive ChatOutcome where
  | panicked (msg : String)
  | fatal (msg : String)
  | done (forwards : List (String × Cell)) (delivers : List (List Nat))
      (ack : Bool) (err : Option String)
  deriving DecidableEq

/-- `DecryptChatMessageCell` (onion_router.go:203-230).  The key lookup
`sharedKeysByCircuitId[cell.CircuitId]` yields the zero value `nil` when the
circuit id is absent (`(keys cid).getD []`).  `aes.NewCipher`'s error is only
printed, never returned, so execution continues with a nil cipher.  The IV
slice `cell.Data[:aes.BlockSize]` panics when the payload is shorter than one
block; otherwise `cipher.NewCFBDecrypter` panics on the nil cipher left by an
invalid key length.  After CFB decryption, `json.Unmarshal`'s error is
discarded: on parse failure the zero-value Onion is used.  The exit branch
hands the payload to the IRC sink (`DeliverChatMessage`, fatal when that call
errs); the relay branch calls `relayChatMessageOnion` and discards its
result.  The handler always sets `ack = true` and returns `nil`. -/
def decryptChatMessageCell (E : List Nat → List Nat → List Nat)
    (keys : Nat → Option (List Nat)) (dialOK : String → Bool)
    (net : String → Cell → Except String Bool)
    (ircDeliver : List Nat → Except String Bool) (cell : Cell) : ChatOutcome :=
  let key := (keys cell.CircuitId).getD []
  if cell.Data.length < blockSize then
    ChatOutcome.panicked "runtime error: slice bounds out of range"
  else if ¬(key.length = 16 ∨ key.length = 24 ∨ key.length = 32) then
    ChatOutcome.panicked "runtime error: invalid memory address or nil pointer dereference"
  else
    let iv := cell.Data.take blockSize
    let jsonData := cfbDecrypt E key iv (cell.Data.drop blockSize)
    let currOnion := (unmarshalOnion jsonData).getD zeroOnion
    if currOnion.IsExitNode then
      match ircDeliver currOnion.Data with
      | Except.error _ => ChatOutcome.fatal "Could not dial IRC"
      | Except.ok _ => ChatOutcome.done [] [currOnion.Data] true none
    else
      match relayChatMessageOnion dialOK net currOnion.NextAddress currOnion.Data cell.CircuitId with
      | CallResult.fatal m => ChatOutcome.fatal m
      | CallResult.ret _ =>
        ChatOutcome.done [(currOnion.NextAddress, { CircuitId := cell.CircuitId, Data := currOnion.Data })]
          [] true none

/-- Result of one outbound polling RPC: process death in `DialOR`, or the
message list together with the call's error. -/
inductive PollCallResult where
  | fatal (msg : String)
  | ret (messages : List String) (err : Option String)
  deriving DecidableEq

/-- `RelayPollingOnion` (onion_router.go:276-288): forward the polling cell to
the next relay and return the messages and error from the blocking call. -/
def relayPollingOnion (dialOK : String → Bool)
    (netPoll : String → Cell → List String × Option String)
    (nextORAddress : String) (nextOnion : List Nat) (circuitId : Nat) : PollCallResult :=
  if dialOK nextORAddress then
    let r := netPoll nextORAddress { CircuitId := circuitId, Data := nextOnion }
    PollCallResult.ret r.1 r.2
  else PollCallResult.fatal "Could not dial OR"

/-- Observable outcome of `DecryptPollingCell`: panic, fatal exit, or a normal
return with the message list written to the ack and the returned error. -/
inductive PollOutcome where
  | panicked (msg : String)
  | fatal (msg : String)
  | done (messages : List String) (err : Option String)
  deriving DecidableEq

/-- `DecryptPollingCell` (onion_router.go:232-260): identical decryption head
to `DecryptChatMessageCell` (same unguarded IV slice, same nil-cipher panic,
same discarded `json.Unmarshal` error); the exit branch queries the IRC sink
(`DeliverPollingMessage`, fatal when the call errs), the relay branch keeps
the forwarded call's messages but discards its error; always returns `nil`. -/
def decryptPollingCell (E : List Nat → List Nat → List Nat)
    (keys : Nat → Option (List Nat)) (dialOK : String → Bool)
    (netPoll : String → Cell → List String × Option String)
    (ircPoll : List Nat → Except String (List String)) (cell : Cell) : PollOutcome :=
  let key := (keys cell.CircuitId).getD []
  if cell.Data.length < blockSize then
    PollOutcome.panicked "runtime error: slice bounds out of range"
  else if ¬(key.length = 16 ∨ key.length = 24 ∨ key.length = 32) then
    PollOutcome.panicked "runtime error: invalid memory address or nil pointer dereference"
  else
    let iv := cell.Data.take blockSize
    let jsonData := cfbDecrypt E key iv (cell.Data.drop blockSize)
    let currOnion := (unmarshalOnion jsonData).getD zeroOnion
    if currOnion.IsExitNode then
      match ircPoll currOnion.Data with
      | Except.error _ => PollOutcome.fatal "Could not dial IRC"
      | Except.ok msgs => PollOutcome.done msgs none
    else
      match relayPollingOnion dialOK netPoll currOnion.NextAddress currOnion.Data cell.CircuitId with
      | PollCallResult.fatal m => PollOutcome.fatal m
      | PollCallResult.ret msgs _ => PollOutcome.done msgs none

/-- Node descriptor inside the directory's node set: address plus RSA public
key (opaque id). -/
structure ORNodeInfo where
  Address : String
  PubKey : Nat
  deriving DecidableEq

/-- Modelled from the spec: `shared.OnionRouterInfos` (§3 NodeSet, §6), the
signed node set fetched from the directory: ordered node descriptors, the
signer's ECDSA public key (opaque id), the digest, and the signature halves. -/
structure ORSetT where
  ORInfos : List ORNodeInfo
  PubKey : Nat
  Hash : Nat
  SigR : Nat
  SigS : Nat
  deriving DecidableEq

/-- Pinned directory-server public key, the literal constant
`directoryServerPubKey` from onion_proxy.go:47-49. -/
def directoryServerPubKey : String :=
  "0449e30da789d5b12a9487a96d70d69b6b8cbd6821d7a647f35c18a8d5f0969054ae3130e7a2a813363eb578747bc77048b700badea328df20ce68a58fcd0e4166f538f9393e0b4072d069cc4cc631271660dc5ebebb20531f11eeb4bd5aa6a5ca"

/-- Error string of `notTrustedDirectoryServerError` (onion_proxy.go:51-53). -/
def notTrustedMsg : String :=
  "Circuit received from non-trusted directory server"

/-- Final state of one `GetCircuitFromDServer` run: process death through
`util.HandleFatalError`, an error returned to the caller, or success. -/
inductive BuildOutcome where
  | fatal (msg : String)
  | err (msg : String)
  | ok
  deriving DecidableEq

/-- Observable result of one circuit build: the outcome, the hop table
entries written to `ORInfoByHopNum` (in write order), and the
`SendCircuitInfo` key-exchange calls attempted (in call order). -/
structure BuildResult where
  outcome : BuildOutcome
  table : List (Nat × OrInfo)
  keyCalls : List (String × CircuitInfo)
  deriving DecidableEq

/-- Per-hop loop of `GetCircuitFromDServer` (onion_proxy.go:159-181).  For
each hop: generate a symmetric key (`genKey`, abstracting
`util.GenerateAESKey`), wrap it (`rsaEncrypt`, abstracting
`util.RSAEncrypt`), dial the relay (`DialOR` is fatal on failure), issue the
`SendCircuitInfo` call — whose result `ackCall` produces is DISCARDED, exactly
as the source discards `client.Call`'s return value — and record the hop in
the table regardless. -/
def circuitLoop (genKey : Nat → List Nat) (rsaEncrypt : Nat → List Nat → List Nat)
    (dialOK : String → Bool) (ackCall : String → CircuitInfo → Except String Bool)
    (cid : Nat) : List ORNodeInfo → Nat → BuildResult
  | [], _ => { outcome := BuildOutcome.ok, table := [], keyCalls := [] }
  | ori :: rest, hopNum =>
    let sharedKey := genKey hopNum
    let encryptedSharedKey := rsaEncrypt ori.PubKey sharedKey
    let circuitInfo : CircuitInfo := { CircuitId := cid, EncryptedSharedKey := encryptedSharedKey }
    if dialOK ori.Address then
      let _ := ackCall ori.Address circuitInfo
      let r := circuitLoop genKey rsaEncrypt dialOK ackCall cid rest (hopNum + 1)
      { outcome := r.outcome,
        table := (hopNum, { address := ori.Address, pubKey := ori.PubKey, sharedKey := sharedKey }) :: r.table,
        keyCalls := (ori.Address, circuitInfo) :: r.keyCalls }
    else { outcome := BuildOutcome.fatal "Could not dial onion router", table := [], keyCalls := [] }

/-- `GetCircuitFromDServer` (onion_proxy.go:147-186).  Fetch the node set
(`util.HandleFatalError` makes a fetch error fatal), check that the stringified
signer key equals the pinned constant AND that the ECDSA signature verifies —
a single combined check whose failure returns the one error value
`notTrustedDirectoryServerError` — then run the per-hop key-exchange loop.
`pkToStr` abstracts `util.PubKeyToString`, `verify` abstracts `ecdsa.Verify`. -/
def getCircuitFromDServer (pkToStr : Nat → String)
    (verify : Nat → Nat → Nat → Nat → Bool)
    (genKey : Nat → List Nat) (rsaEncrypt : Nat → List Nat → List Nat)
    (dialOK : String → Bool) (ackCall : String → CircuitInfo → Except String Bool)
    (cid : Nat) (getNodesResult : Except String ORSetT) : BuildResult :=
  match getNodesResult with
  | Except.error _ =>
    { outcome := BuildOutcome.fatal "Could not get circuit from directory server",
      table := [], keyCalls := [] }
  | Except.ok orset =>
    if pkToStr orset.PubKey ≠ directoryServerPubKey ∨
        ¬verify orset.PubKey orset.Hash orset.SigR orset.SigS then
      { outcome := BuildOutcome.err notTrustedMsg, table := [], keyCalls := [] }
    else circuitLoop genKey rsaEncrypt dialOK ackCall cid orset.ORInfos 0

/-- Modelled from the spec: `util.HandleFatalError` (package util is not under
src/).  Per §7 — transport errors during bootstrap "are fatal to the process"
and every bootstrap path routes through this helper — and by contrast with the
source's separate `util.HandleNonFatalError`, it terminates the process
exactly when the error is non-nil.  Returns `true` when the process dies. -/
def handleFatalError (err : Option String) : Bool :=
  err.isSome

/-- `sendHeartBeat` (onion_router.go:140-144): one `DServer.KeepNodeOnline`
call whose error is passed to `util.HandleFatalError`.  Returns `true` when
the process dies. -/
def sendHeartBeat (callErr : Option String) : Bool :=
  handleFatalError callErr

/-- Tick loop of `startSendingHeartbeatsToServer` (onion_router.go:132-137),
unrolled for `fuel` ticks starting at tick `i`; `res i` is the error of the
heartbeat call at tick `i`.  Returns the number of sends attempted and
whether the process died. -/
def heartbeatAux (res : Nat → Option String) : Nat → Nat → Nat × Bool
  | _, 0 => (0, false)
  | i, fuel + 1 =>
    if sendHeartBeat (res i) then (1, true)
    else
      let r := heartbeatAux res (i + 1) fuel
      (r.1 + 1, r.2)

/-- Heartbeat loop observed for `fuel` ticks from tick 0. -/
def heartbeatRun (res : Nat → Option String) (fuel : Nat) : Nat × Bool :=
  heartbeatAux res 0 fuel

theorem zipWith_xor_cancel (a : List Nat) : ∀ b : List Nat, a.length ≤ b.length →
    List.zipWith Nat.xor (List.zipWith Nat.xor a b) b = a := by
  induction a with
  | nil => intro b h; simp
  | cons x a ih =>
    intro b h
    cases b with
    | nil => simp at h
    | cons y b =>
      simp only [List.zipWith_cons_cons]
      have hx : Nat.xor (Nat.xor x y) y = x := Nat.xor_cancel_right y x
      rw [hx, ih b (by simpa using h)]

theorem take_append_block (a b : List Nat) (h : a.length = blockSize) :
    (a ++ b).take blockSize = a := by
  rw [← h]
  exact List.take_left a b

theorem drop_append_block (a b : List Nat) (h : a.length = blockSize) :
    (a ++ b).drop blockSize = b := by
  rw [← h]
  exact List.drop_left a b

theorem cfbEncryptAux_nil (E : List Nat → List Nat → List Nat) (key : List Nat) :
    ∀ (fuel : Nat) (reg : List Nat), cfbEncryptAux E key fuel reg [] = [] := by
  intro fuel reg
  cases fuel <;> simp [cfbEncryptAux]

theorem cfbDecryptAux_nil (E : List Nat → List Nat → List Nat) (key : List Nat) :
    ∀ (fuel : Nat) (reg : List Nat), cfbDecryptAux E key fuel reg [] = [] := by
  intro fuel reg
  cases fuel <;> simp [cfbDecryptAux]

theorem cfbEncryptAux_length (E : List Nat → List Nat → List Nat) (key : List Nat)
    (hE : ∀ b, (E key b).length = blockSize) :
    ∀ (fuel : Nat) (reg p : List Nat), p.length ≤ fuel →
      (cfbEncryptAux E key fuel reg p).length = p.length := by
  intro fuel
  induction fuel with
  | zero =>
    intro reg p hp
    have : p = [] := List.eq_nil_of_length_eq_zero (Nat.le_zero.mp hp)
    subst this
    simp [cfbEncryptAux]
  | succ fuel ih =>
    intro reg p hp
    by_cases hp0 : p = []
    · subst hp0; simp [cfbEncryptAux]
    · have hpos : 0 < p.length := List.length_pos.mpr hp0
      have hbs : blockSize = 16 := rfl
      simp only [cfbEncryptAux, if_neg hp0]
      rw [List.length_append,
        ih _ _ (by rw [List.length_drop]; omega),
        List.length_zipWith, hE, List.length_take, List.length_drop]
      omega

theorem cfbAux_roundtrip (E : List Nat → List Nat → List Nat) (key : List Nat)
    (hE : ∀ b, (E key b).length = blockSize) :
    ∀ (fuel : Nat) (reg p : List Nat), p.length ≤ fuel →
      cfbDecryptAux E key fuel reg (cfbEncryptAux E key fuel reg p) = p := by
  intro fuel
  induction fuel with
  | zero =>
    intro reg p hp
    have : p = [] := List.eq_nil_of_length_eq_zero (Nat.le_zero.mp hp)
    subst this
    simp [cfbEncryptAux, cfbDecryptAux]
  | succ fuel ih =>
    intro reg p hp
    by_cases hp0 : p = []
    · subst hp0; simp [cfbEncryptAux, cfbDecryptAux]
    · have hpos : 0 < p.length := List.length_pos.mpr hp0
      have hbs : blockSize = 16 := rfl
      have hEl : (E key reg).length = blockSize := hE reg
      simp only [cfbEncryptAux, if_neg hp0]
      by_cases hple : blockSize ≤ p.length
      · have hc16 : (List.zipWith Nat.xor (p.take blockSize) (E key reg)).length = blockSize := by
          rw [List.length_zipWith, hEl, List.length_take]
          omega
        have hne : List.zipWith Nat.xor (p.take blockSize) (E key reg) ++
            cfbEncryptAux E key fuel (List.zipWith Nat.xor (p.take blockSize) (E key reg))
              (p.drop blockSize) ≠ [] := by
          intro hcon
          have hl := congrArg List.length hcon
          rw [List.length_append, hc16] at hl
          simp only [List.length_nil] at hl
          omega
        simp only [cfbDecryptAux, if_neg hne]
        rw [take_append_block _ _ hc16, drop_append_block _ _ hc16,
          zipWith_xor_cancel _ _ (by rw [List.length_take, hEl]; omega),
          ih _ _ (by rw [List.length_drop]; omega)]
        exact List.take_append_drop blockSize p
      · have hdrop : p.drop blockSize = [] := List.drop_eq_nil_of_le (by omega)
        have htake : p.take blockSize = p := List.take_of_length_le (by omega)
        rw [hdrop, cfbEncryptAux_nil, List.append_nil, htake]
        have hne : List.zipWith Nat.xor p (E key reg) ≠ [] := by
          intro hcon
          have hl := congrArg List.length hcon
          rw [List.length_zipWith, hEl] at hl
          simp only [List.length_nil] at hl
          omega
        simp only [cfbDecryptAux, if_neg hne]
        have htake2 : (List.zipWith Nat.xor p (E key reg)).take blockSize
            = List.zipWith Nat.xor p (E key reg) := by
          apply List.take_of_length_le
          rw [List.length_zipWith, hEl]
          omega
        have hdrop2 : (List.zipWith Nat.xor p (E key reg)).drop blockSize = [] := by
          apply List.drop_eq_nil_of_le
          rw [List.length_zipWith, hEl]
          omega
        rw [htake2, hdrop2, cfbDecryptAux_nil, List.append_nil]
        exact zipWith_xor_cancel p (E key reg) (by rw [hEl]; omega)

theorem cfbEncrypt_length (E : List Nat → List Nat → List Nat) (key : List Nat)
    (hE : ∀ b, (E key b).length = blockSize) (reg p : List Nat) :
    (cfbEncrypt E key reg p).length = p.length :=
  cfbEncryptAux_length E key hE p.length reg p le_rfl

theorem cfb_roundtrip (E : List Nat → List Nat → List Nat) (key : List Nat)
    (hE : ∀ b, (E key b).length = blockSize) (reg p : List Nat) :
    cfbDecrypt E key reg (cfbEncrypt E key reg p) = p := by
  unfold cfbDecrypt cfbEncrypt
  rw [cfbEncryptAux_length E key hE p.length reg p le_rfl]
  exact cfbAux_roundtrip E key hE p.length reg p le_rfl

theorem stringOfNats_natsOfString (s : String) : stringOfNats (natsOfString s) = s := by
  unfold stringOfNats natsOfString
  rw [List.map_map]
  have hco : (Char.ofNat ∘ Char.toNat) = id := funext Char.ofNat_toNat
  rw [hco, List.map_id]
  cases s
  rfl

theorem unmarshal_marshal (o : Onion) : unmarshalOnion (marshalOnion o) = some o := by
  obtain ⟨d, ex, addr⟩ := o
  have h1 : (if ex = true then 1 else 0) ≤ 1 := by cases ex <;> simp
  have h2 : d.length ≤ (d ++ natsOfString addr).length := by simp
  simp only [marshalOnion, unmarshalOnion]
  rw [if_pos ⟨h1, h2⟩]
  have htake : (d ++ natsOfString addr).take d.length = d := List.take_left d _
  have hdrop : (d ++ natsOfString addr).drop d.length = natsOfString addr := List.drop_left d _
  rw [htake, hdrop, stringOfNats_natsOfString]
  cases ex <;> simp

theorem decryptOneLayer_encrypt (E : List Nat → List Nat → List Nat) (key iv m : List Nat)
    (hE : ∀ b, (E key b).length = blockSize) (hiv : iv.length = blockSize) :
    decryptOneLayer E key (iv ++ cfbEncrypt E key iv m) = unmarshalOnion m := by
  unfold decryptOneLayer
  rw [← hiv, List.take_left, List.drop_left, cfb_roundtrip E key hE]

theorem unwrapChain_cons (E : List Nat → List Nat → List Nat) (h : OrInfo)
    (rest : List OrInfo) (iv : List Nat) (o : Onion)
    (hE : ∀ b, (E h.sharedKey b).length = blockSize) (hiv : iv.length = blockSize) :
    unwrapChain E (h :: rest) (iv ++ cfbEncrypt E h.sharedKey iv (marshalOnion o))
      = (unwrapChain E rest o.Data).map (fun ls => o :: ls) := by
  simp only [unwrapChain]
  rw [decryptOneLayer_encrypt E h.sharedKey iv _ hE hiv, unmarshal_marshal]

theorem unwrap_onionizeAux (E : List Nat → List Nat → List Nat) (ivs : Nat → List Nat)
    (M : List Nat)
    (hE : ∀ k b, (E k b).length = blockSize) (hiv : ∀ i, (ivs i).length = blockSize) :
    ∀ (hops : List OrInfo) (i : Nat), hops ≠ [] →
      ∃ layers : List Onion,
        unwrapChain E hops (onionizeAux E ivs hops i M) = some layers ∧
        layers.length = hops.length ∧
        (∀ j, j + 1 < hops.length →
          (layers[j]?).map Onion.IsExitNode = some false ∧
          (layers[j]?).map Onion.NextAddress = (hops[j + 1]?).map OrInfo.address) ∧
        (layers[hops.length - 1]?).map Onion.IsExitNode = some true ∧
        (layers[hops.length - 1]?).map Onion.Data = some M := by
  intro hops
  induction hops with
  | nil => intro i h; exact absurd rfl h
  | cons h rest ih =>
    intro i _
    cases rest with
    | nil =>
      refine ⟨[Onion.mk M true ""], ?_, rfl, ?_, ?_, ?_⟩
      · have hstep : onionizeAux E ivs [h] i M
            = ivs i ++ cfbEncrypt E h.sharedKey (ivs i) (marshalOnion (Onion.mk M true "")) := rfl
        rw [hstep, unwrapChain_cons E h [] (ivs i) _ (hE h.sharedKey) (hiv i)]
        simp [unwrapChain]
      · intro j hj
        simp at hj
      · rfl
      · rfl
    | cons h2 rest2 =>
      obtain ⟨layers, hu, hlen, hmid, hexit, hdata⟩ := ih (i + 1) (by simp)
      refine ⟨Onion.mk (onionizeAux E ivs (h2 :: rest2) (i + 1) M) false h2.address :: layers,
        ?_, ?_, ?_, ?_, ?_⟩
      · have hstep : onionizeAux E ivs (h :: h2 :: rest2) i M
            = ivs i ++ cfbEncrypt E h.sharedKey (ivs i)
                (marshalOnion
                  (Onion.mk (onionizeAux E ivs (h2 :: rest2) (i + 1) M) false h2.address)) := rfl
        rw [hstep, unwrapChain_cons E h (h2 :: rest2) (ivs i) _ (hE h.sharedKey) (hiv i)]
        simp [hu]
      · simp [hlen]
      · intro j hj
        cases j with
        | zero =>
          constructor
          · simp
          · simp
        | succ k =>
          have hk : k + 1 < (h2 :: rest2).length := by
            simp only [List.length_cons] at hj ⊢
            omega
          have := hmid k hk
          simpa using this
      · have hidx : (h :: h2 :: rest2).length - 1 = ((h2 :: rest2).length - 1) + 1 := by
          simp
        rw [hidx, List.getElem?_cons_succ]
        exact hexit
      · have hidx : (h :: h2 :: rest2).length - 1 = ((h2 :: rest2).length - 1) + 1 := by
          simp
        rw [hidx, List.getElem?_cons_succ]
        exact hdata

/-- Layer built by `OnionizeData` for the hop whose successors are `rest`:
its payload is the already-onionized inner data, it is the exit layer exactly
when it has no successor, and otherwise it carries the successor's address. -/
def onionLayer (E : List Nat → List Nat → List Nat) (ivs : Nat → List Nat)
    (rest : List OrInfo) (i : Nat) (M : List Nat) : Onion :=
  { Data := onionizeAux E ivs rest (i + 1) M,
    IsExitNode := rest = [],
    NextAddress := match rest with | [] => "" | h2 :: _ => h2.address }

/-- Toy block cipher used to instantiate the abstract AES parameter in
witnesses: a full block derived from the first key byte and first input
byte.  Satisfies the one property the theorems assume of AES, a fixed
16-byte block length. -/
def EW : List Nat → List Nat → List Nat :=
  fun k b => List.replicate blockSize ((k.headD 0) ^^^ (b.headD 0))

/-- Concrete IV schedule for witnesses. -/
def ivsW : Nat → List Nat :=
  fun i => List.replicate blockSize i

/-- Concrete guard hop for witnesses. -/
def hopA : OrInfo := OrInfo.mk "10.0.0.1:9001" 101 (List.replicate blockSize 1)

/-- Concrete middle hop for witnesses. -/
def hopB : OrInfo := OrInfo.mk "10.0.0.2:9002" 102 (List.replicate blockSize 2)

/-- Concrete exit hop for witnesses. -/
def hopC : OrInfo := OrInfo.mk "10.0.0.3:9003" 103 (List.replicate blockSize 3)

/-- Concrete three-hop circuit for witnesses, the Guard/Middle/Exit path of
spec §8. -/
def hopsW : List OrInfo := [hopA, hopB, hopC]

/-- Concrete message bytes ("hello") for witnesses. -/
def MW : List Nat := [104, 101, 108, 108, 111]

/-- Claim C1: for every message M and every complete circuit with hops
H0..Hn-1 (n ≥ 1), applying decrypt_one_layer n times in hop order to
encrypt(M, circuit), each time with that hop's symmetric key, recovers M; the
decoded layer has is_exit = true only at the final (exit) unwrap, and each
intermediate decoded layer's next_hop_address equals the address of that
hop's successor recorded at encryption time. -/
theorem onionize_roundtrip_correct (E : List Nat → List Nat → List Nat)
    (ivs : Nat → List Nat) (hops : List OrInfo) (M : List Nat)
    (hn : hops ≠ [])
    (hE : ∀ k b, (E k b).length = blockSize) (hiv : ∀ i, (ivs i).length = blockSize) :
    ∃ layers : List Onion,
      unwrapChain E hops (OnionizeData E ivs hops M) = some layers ∧
      layers.length = hops.length ∧
      (∀ j, j + 1 < hops.length →
        (layers[j]?).map Onion.IsExitNode = some false ∧
        (layers[j]?).map Onion.NextAddress = (hops[j + 1]?).map OrInfo.address) ∧
      (layers[hops.length - 1]?).map Onion.IsExitNode = some true ∧
      (layers[hops.length - 1]?).map Onion.Data = some M :=
  unwrap_onionizeAux E ivs M hE hiv hops 0 hn

/-- Witness for C1 at the concrete three-hop circuit and message "hello". -/
theorem onionize_roundtrip_correct_witness :
    hopsW ≠ [] ∧
    ∃ layers : List Onion,
      unwrapChain EW hopsW (OnionizeData EW ivsW hopsW MW) = some layers ∧
      layers.length = hopsW.length ∧
      (∀ j, j + 1 < hopsW.length →
        (layers[j]?).map Onion.IsExitNode = some false ∧
        (layers[j]?).map Onion.NextAddress = (hopsW[j + 1]?).map OrInfo.address) ∧
      (layers[hopsW.length - 1]?).map Onion.IsExitNode = some true ∧
      (layers[hopsW.length - 1]?).map Onion.Data = some MW :=
  ⟨by simp [hopsW], onionize_roundtrip_correct EW ivsW hopsW MW (by simp [hopsW])
    (fun k b => by simp [EW]) (fun i => by simp [ivsW])⟩

/-- Claim C8: for every layer produced by encrypt, the emitted ciphertext is
exactly the fresh IV (one AES block) prefixed to the encrypted serialized
plaintext, so its length is the IV length plus the length of that layer's
serialized plaintext. -/
theorem onionize_layer_length (E : List Nat → List Nat → List Nat)
    (ivs : Nat → List Nat) (h : OrInfo) (rest : List OrInfo) (i : Nat) (M : List Nat)
    (hE : ∀ b, (E h.sharedKey b).length = blockSize) (hiv : (ivs i).length = blockSize) :
    onionizeAux E ivs (h :: rest) i M
      = ivs i ++ cfbEncrypt E h.sharedKey (ivs i) (marshalOnion (onionLayer E ivs rest i M)) ∧
    (onionizeAux E ivs (h :: rest) i M).length
      = blockSize + (marshalOnion (onionLayer E ivs rest i M)).length := by
  have h1 : onionizeAux E ivs (h :: rest) i M
      = ivs i ++ cfbEncrypt E h.sharedKey (ivs i) (marshalOnion (onionLayer E ivs rest i M)) := by
    cases rest with
    | nil => rfl
    | cons h2 r2 => rfl
  refine ⟨h1, ?_⟩
  rw [h1, List.length_append, hiv, cfbEncrypt_length E h.sharedKey hE]

/-- Witness for C8 at the guard layer of the concrete three-hop circuit. -/
theorem onionize_layer_length_witness :
    onionizeAux EW ivsW (hopA :: [hopB, hopC]) 0 MW
      = ivsW 0 ++ cfbEncrypt EW hopA.sharedKey (ivsW 0)
          (marshalOnion (onionLayer EW ivsW [hopB, hopC] 0 MW)) ∧
    (onionizeAux EW ivsW (hopA :: [hopB, hopC]) 0 MW).length
      = blockSize + (marshalOnion (onionLayer EW ivsW [hopB, hopC] 0 MW)).length :=
  onionize_layer_length EW ivsW hopA [hopB, hopC] 0 MW
    (fun b => by simp [EW]) (by simp [ivsW])

/-- Counterexample to claim C9 as stated: with an empty hop table,
`SendMessage` does NOT transmit the serialized chat message — at a concrete
call (cooperative dialer and network, so only the code's own behaviour can
fail) the outcome is a nil-pointer panic from `ORInfoByHopNum[0].address` in
`SendChatMessageOnion`, not a `sent` outcome; nothing reaches any relay. -/
theorem emptyHops_send_counterexample :
    sendMessage EW ivsW (fun _ => true) (fun _ _ => Except.ok true) [] 42
      "127.0.0.1:7000" "alice" "hi"
      = SendOutcome.panicked "runtime error: invalid memory address or nil pointer dereference" := by
  decide

/-- Claim C9 (amended): if the proxy's hop table is empty (no circuit has
been established), OnionizeData returns its input byte payload unchanged, and
the cell SendMessage builds therefore carries the serialized chat message
with no encryption layer at all as its payload — but that cell is never
transmitted: SendChatMessageOnion dereferences the nil guard entry
`ORInfoByHopNum[0]` and panics, for every choice of cipher, IVs, dialer,
network and message. -/
theorem onionize_empty_hops_identity :
    (∀ (E : List Nat → List Nat → List Nat) (ivs : Nat → List Nat) (d : List Nat),
      OnionizeData E ivs [] d = d) ∧
    (∀ (E : List Nat → List Nat → List Nat) (ivs : Nat → List Nat)
      (dialOK : String → Bool) (net : String → Cell → Except String Bool)
      (cid : Nat) (irc user msg : String),
      sendMessage E ivs dialOK net [] cid irc user msg
        = SendOutcome.panicked
            "runtime error: invalid memory address or nil pointer dereference") := by
  constructor
  · intro E ivs d
    rfl
  · intro E ivs dialOK net cid irc user msg
    rfl

/-- Counterexample to claim C2 as stated: a cell whose circuit_id has no
entry in the relay's key table does NOT yield an `UnknownCircuit` error with
the relay continuing — the nil key makes `aes.NewCipher` fail, the failure is
only printed, and `cipher.NewCFBDecrypter` then panics on the nil cipher,
crashing the handling relay. -/
theorem unknownCircuit_counterexample :
    decryptChatMessageCell EW (fun _ => none) (fun _ => true)
      (fun _ _ => Except.ok true) (fun _ => Except.ok true)
      (Cell.mk 7 (List.replicate blockSize 0))
      = ChatOutcome.panicked "runtime error: invalid memory address or nil pointer dereference" := by
  decide

/-- Claim C2 (amended): for every incoming Cell whose circuit_id has no entry
in the relay's key table (and whose payload is at least one block, so the IV
slice succeeds), the relay panics on the nil cipher instead of returning an
`UnknownCircuit` error; no forwarding occurs and the relay does not keep
running. -/
theorem unknownCircuit_panics (E : List Nat → List Nat → List Nat)
    (keys : Nat → Option (List Nat)) (dialOK : String → Bool)
    (net : String → Cell → Except String Bool)
    (ircDeliver : List Nat → Except String Bool) (cell : Cell)
    (hk : keys cell.CircuitId = none) (hlen : blockSize ≤ cell.Data.length) :
    decryptChatMessageCell E keys dialOK net ircDeliver cell
      = ChatOutcome.panicked "runtime error: invalid memory address or nil pointer dereference" := by
  simp only [decryptChatMessageCell, hk, Option.getD_none, List.length_nil]
  rw [if_neg (not_lt.mpr hlen), if_pos (by simp)]

/-- Witness for the amended C2 at a concrete unknown-circuit cell. -/
theorem unknownCircuit_panics_witness :
    ((fun _ : Nat => (none : Option (List Nat))) 9 = none ∧
      blockSize ≤ (List.replicate blockSize 0).length) ∧
    decryptChatMessageCell EW (fun _ => none) (fun _ => true) (fun _ _ => Except.ok true)
      (fun _ => Except.ok true) (Cell.mk 9 (List.replicate blockSize 0))
      = ChatOutcome.panicked "runtime error: invalid memory address or nil pointer dereference" :=
  ⟨⟨rfl, by simp⟩, unknownCircuit_panics EW (fun _ => none) (fun _ => true)
    (fun _ _ => Except.ok true) (fun _ => Except.ok true)
    (Cell.mk 9 (List.replicate blockSize 0)) rfl (by simp)⟩

/-- Claim C10: the relay's cell handlers slice the payload at the AES block
size with no length guard, so for any incoming Cell whose Data is shorter
than one AES block (16 bytes), both DecryptChatMessageCell and
DecryptPollingCell panic with an out-of-range slice instead of returning an
error. -/
theorem short_cell_panics (E : List Nat → List Nat → List Nat)
    (keys : Nat → Option (List Nat)) (dialOK : String → Bool)
    (net : String → Cell → Except String Bool) (ircDeliver : List Nat → Except String Bool)
    (netPoll : String → Cell → List String × Option String)
    (ircPoll : List Nat → Except String (List String)) (cell : Cell)
    (hlen : cell.Data.length < blockSize) :
    decryptChatMessageCell E keys dialOK net ircDeliver cell
      = ChatOutcome.panicked "runtime error: slice bounds out of range" ∧
    decryptPollingCell E keys dialOK netPoll ircPoll cell
      = PollOutcome.panicked "runtime error: slice bounds out of range" := by
  constructor
  · simp only [decryptChatMessageCell]
    rw [if_pos hlen]
  · simp only [decryptPollingCell]
    rw [if_pos hlen]

/-- Witness for C10 at a concrete 3-byte cell. -/
theorem short_cell_panics_witness :
    (Cell.mk 3 [1, 2, 3]).Data.length < blockSize ∧
    (decryptChatMessageCell EW (fun _ => some (List.replicate blockSize 5)) (fun _ => true)
      (fun _ _ => Except.ok true) (fun _ => Except.ok true) (Cell.mk 3 [1, 2, 3])
      = ChatOutcome.panicked "runtime error: slice bounds out of range" ∧
    decryptPollingCell EW (fun _ => some (List.replicate blockSize 5)) (fun _ => true)
      (fun _ _ => ([], none)) (fun _ => Except.ok []) (Cell.mk 3 [1, 2, 3])
      = PollOutcome.panicked "runtime error: slice bounds out of range") :=
  ⟨by decide, short_cell_panics EW (fun _ => some (List.replicate blockSize 5)) (fun _ => true)
    (fun _ _ => Except.ok true) (fun _ => Except.ok true) (fun _ _ => ([], none))
    (fun _ => Except.ok []) (Cell.mk 3 [1, 2, 3]) (by decide)⟩

/-- Concrete 16-byte AES keys for the wrong-key scenario: the circuit-A key
the sender used and the circuit-B key the relay holds. -/
def keyA : List Nat := 1 :: List.replicate 15 0

/-- Circuit-B key, differing from `keyA` in its first byte. -/
def keyB : List Nat := 5 :: List.replicate 15 0

/-- Cell honestly encrypted under `keyA` (an exit layer carrying bytes
[9, 9]), to be decrypted by a relay that holds `keyB` for this circuit id. -/
def wrongKeyCell : Cell :=
  Cell.mk 1 (ivsW 0 ++ cfbEncrypt EW keyA (ivsW 0) (marshalOnion (Onion.mk [9, 9] true "")))

/-- Claim C4 (code-bug evaluation): decrypting a cell of circuit A with
circuit B's key does NOT fail with a DecodeError — the source discards
`json.Unmarshal`'s error, keeps the zero-value Onion, and proceeds to route
it: with realistic dialing (the empty address is undialable) the relay dies
in `DialOR`; with a permissive dialer it forwards the empty payload to the
empty address and still reports success (`nil` error, ack = true). -/
theorem wrongKey_no_decode_error_eval :
    decryptChatMessageCell EW (fun cid => if cid = 1 then some keyB else none)
      (fun a => a ≠ "") (fun _ _ => Except.ok true) (fun _ => Except.ok true) wrongKeyCell
      = ChatOutcome.fatal "Could not dial OR" ∧
    decryptChatMessageCell EW (fun cid => if cid = 1 then some keyB else none)
      (fun _ => true) (fun _ _ => Except.error "connection refused") (fun _ => Except.ok true)
      wrongKeyCell
      = ChatOutcome.done [("", Cell.mk 1 [])] [] true none := by
  constructor
  · decide
  · decide

/-- Concrete key of a middle relay for the C6 scenario. -/
def keyM : List Nat := List.replicate blockSize 2

/-- Cell correctly encrypted for the middle relay: a non-exit layer carrying
inner payload [7] and next-hop address "b". -/
def midCell : Cell :=
  Cell.mk 9 (ivsW 1 ++ cfbEncrypt EW keyM (ivsW 1) (marshalOnion (Onion.mk [7] false "b")))

/-- Claim C6 (code-bug evaluation): for a decrypted non-exit layer the relay
does forward a new Cell with the same circuit_id and the decrypted inner
payload to the layer's next_hop_address as a blocking call — but it does NOT
propagate that call's result: here the forwarded call returns the error
"connection refused", yet DecryptChatMessageCell still acks true and returns
a nil error. -/
theorem relay_error_discarded_eval :
    relayChatMessageOnion (fun _ => true) (fun _ _ => Except.error "connection refused")
      "b" [7] 9
      = CallResult.ret (some "connection refused") ∧
    decryptChatMessageCell EW (fun cid => if cid = 9 then some keyM else none)
      (fun _ => true) (fun _ _ => Except.error "connection refused") (fun _ => Except.ok true)
      midCell
      = ChatOutcome.done [("b", Cell.mk 9 [7])] [] true none := by
  constructor
  · decide
  · decide

/-- Stringification of the trusted signer's key id for concrete builds: id 99
maps to the pinned constant, everything else to a different string. -/
def pkToStrW : Nat → String :=
  fun k => if k = 99 then directoryServerPubKey else "untrusted-key"

/-- Concrete trusted two-hop node set for the C3 scenario. -/
def orsetGood : ORSetT :=
  ORSetT.mk [ORNodeInfo.mk "10.0.0.1:9001" 11, ORNodeInfo.mk "10.0.0.2:9002" 12] 99 1000 5 6

/-- Build run in which every per-hop `SendCircuitInfo` call fails. -/
def ackFailBuild : BuildResult :=
  getCircuitFromDServer pkToStrW (fun _ _ _ _ => true)
    (fun i => List.replicate blockSize (i + 1)) (fun pk sk => pk :: sk)
    (fun _ => true) (fun _ _ => Except.error "no acknowledgement") 42 (Except.ok orsetGood)

/-- Counterexample to claim C3 as stated: with every per-hop
`SendCircuitInfo` acknowledgement failing, the build does NOT abort — it
completes successfully, records both hops in the table, and attempts both
key-exchange calls, because the source discards `client.Call`'s result. -/
theorem ackFailure_build_succeeds_counterexample :
    ackFailBuild.outcome = BuildOutcome.ok ∧
    ackFailBuild.table
      = [(0, OrInfo.mk "10.0.0.1:9001" 11 (List.replicate blockSize 1)),
         (1, OrInfo.mk "10.0.0.2:9002" 12 (List.replicate blockSize 2))] ∧
    ackFailBuild.keyCalls.length = 2 := by
  refine ⟨?_, ?_, ?_⟩ <;> decide

theorem circuitLoop_all_dial_ok (genKey : Nat → List Nat)
    (rsaEncrypt : Nat → List Nat → List Nat) (dialOK : String → Bool)
    (ackCall : String → CircuitInfo → Except String Bool) (cid : Nat) :
    ∀ (l : List ORNodeInfo) (n : Nat), (∀ ori ∈ l, dialOK ori.Address = true) →
      (circuitLoop genKey rsaEncrypt dialOK ackCall cid l n).outcome = BuildOutcome.ok ∧
      (circuitLoop genKey rsaEncrypt dialOK ackCall cid l n).table.length = l.length ∧
      (circuitLoop genKey rsaEncrypt dialOK ackCall cid l n).keyCalls.length = l.length := by
  intro l
  induction l with
  | nil => intro n _; exact ⟨rfl, rfl, rfl⟩
  | cons ori rest ih =>
    intro n hd
    have hdo : dialOK ori.Address = true := hd ori (by simp)
    have hrest : ∀ o ∈ rest, dialOK o.Address = true :=
      fun o ho => hd o (List.mem_cons_of_mem _ ho)
    obtain ⟨h1, h2, h3⟩ := ih (n + 1) hrest
    simp only [circuitLoop, hdo, if_true, List.length_cons]
    exact ⟨h1, by simp [h2], by simp [h3]⟩

/-- Claim C3 (amended): a trust-verification failure aborts the build before
any key exchange (see C5), and an unreachable hop kills the proxy process in
`DialOR` rather than returning a build error — but per-hop failures of the
`SendCircuitInfo` acknowledgement never abort the build: whenever the node
set is trusted and every hop is dialable, the build completes successfully
and records every hop, regardless of the outcome of every key-exchange
call. -/
theorem build_ignores_ack_failures (pkToStr : Nat → String)
    (verify : Nat → Nat → Nat → Nat → Bool) (genKey : Nat → List Nat)
    (rsaEncrypt : Nat → List Nat → List Nat) (dialOK : String → Bool)
    (ackCall : String → CircuitInfo → Except String Bool) (cid : Nat) (orset : ORSetT)
    (htrust : pkToStr orset.PubKey = directoryServerPubKey)
    (hverify : verify orset.PubKey orset.Hash orset.SigR orset.SigS = true)
    (hdial : ∀ ori ∈ orset.ORInfos, dialOK ori.Address = true) :
    (getCircuitFromDServer pkToStr verify genKey rsaEncrypt dialOK ackCall cid
      (Except.ok orset)).outcome = BuildOutcome.ok ∧
    (getCircuitFromDServer pkToStr verify genKey rsaEncrypt dialOK ackCall cid
      (Except.ok orset)).table.length = orset.ORInfos.length ∧
    (getCircuitFromDServer pkToStr verify genKey rsaEncrypt dialOK ackCall cid
      (Except.ok orset)).keyCalls.length = orset.ORInfos.length := by
  have hcond : ¬(pkToStr orset.PubKey ≠ directoryServerPubKey ∨
      ¬verify orset.PubKey orset.Hash orset.SigR orset.SigS) := by
    simp [htrust, hverify]
  simp only [getCircuitFromDServer, if_neg hcond]
  exact circuitLoop_all_dial_ok genKey rsaEncrypt dialOK ackCall cid orset.ORInfos 0 hdial

/-- Witness for the amended C3 at the concrete trusted node set with every
acknowledgement call failing. -/
theorem build_ignores_ack_failures_witness :
    (pkToStrW orsetGood.PubKey = directoryServerPubKey ∧
      (fun _ _ _ _ => true : Nat → Nat → Nat → Nat → Bool)
        orsetGood.PubKey orsetGood.Hash orsetGood.SigR orsetGood.SigS = true) ∧
    ((getCircuitFromDServer pkToStrW (fun _ _ _ _ => true)
      (fun i => List.replicate blockSize (i + 1)) (fun pk sk => pk :: sk)
      (fun _ => true) (fun _ _ => Except.error "unreachable") 42
      (Except.ok orsetGood)).outcome = BuildOutcome.ok ∧
    (getCircuitFromDServer pkToStrW (fun _ _ _ _ => true)
      (fun i => List.replicate blockSize (i + 1)) (fun pk sk => pk :: sk)
      (fun _ => true) (fun _ _ => Except.error "unreachable") 42
      (Except.ok orsetGood)).table.length = orsetGood.ORInfos.length ∧
    (getCircuitFromDServer pkToStrW (fun _ _ _ _ => true)
      (fun i => List.replicate blockSize (i + 1)) (fun pk sk => pk :: sk)
      (fun _ => true) (fun _ _ => Except.error "unreachable") 42
      (Except.ok orsetGood)).keyCalls.length = orsetGood.ORInfos.length) :=
  ⟨⟨rfl, rfl⟩, build_ignores_ack_failures pkToStrW (fun _ _ _ _ => true)
    (fun i => List.replicate blockSize (i + 1)) (fun pk sk => pk :: sk)
    (fun _ => true) (fun _ _ => Except.error "unreachable") 42 orsetGood
    rfl rfl (fun _ _ => rfl)⟩

/-- Node set whose signer is not the pinned key (id 50), with a signature the
verifier accepts, for the C5 scenario. -/
def orsetBadSigner : ORSetT :=
  ORSetT.mk [ORNodeInfo.mk "10.0.0.1:9001" 11] 50 1000 5 6

/-- Node set whose signer IS the pinned key (id 99) but whose signature the
verifier rejects, for the C5 scenario. -/
def orsetBadSig : ORSetT :=
  ORSetT.mk [ORNodeInfo.mk "10.0.0.1:9001" 11] 99 1000 5 6

/-- Verifier for the C5 scenario: accepts exactly signatures by key id 50, so
`orsetBadSigner` fails only the pinned-key comparison and `orsetBadSig` fails
only signature verification. -/
def verifyW : Nat → Nat → Nat → Nat → Bool :=
  fun pk _ _ _ => pk = 50

/-- Counterexample to claim C5 as stated: the code does not distinguish
`UntrustedSigner` from `InvalidSignature` — a node set signed by a non-pinned
key and a node set with an invalid signature under the pinned key produce the
SAME single error value (`notTrustedDirectoryServerError`), not two distinct
failure modes. -/
theorem trust_single_error_counterexample :
    getCircuitFromDServer pkToStrW verifyW (fun i => List.replicate blockSize (i + 1))
      (fun pk sk => pk :: sk) (fun _ => true) (fun _ _ => Except.ok true) 42
      (Except.ok orsetBadSigner)
      = BuildResult.mk (BuildOutcome.err notTrustedMsg) [] [] ∧
    getCircuitFromDServer pkToStrW verifyW (fun i => List.replicate blockSize (i + 1))
      (fun pk sk => pk :: sk) (fun _ => true) (fun _ _ => Except.ok true) 42
      (Except.ok orsetBadSig)
      = BuildResult.mk (BuildOutcome.err notTrustedMsg) [] [] := by
  constructor
  · decide
  · decide

/-- Claim C5 (amended): when the fetched node set's signer differs from the
pinned directory key, or the signature does not verify under the claimed
signer, the builder aborts the current build with the single trust error
`notTrustedDirectoryServerError` (the code does not distinguish the two
cases), performs no key-exchange traffic, writes no hop-table entry, and the
process continues (an error return, not a fatal exit). -/
theorem trust_failure_aborts_build (pkToStr : Nat → String)
    (verify : Nat → Nat → Nat → Nat → Bool) (genKey : Nat → List Nat)
    (rsaEncrypt : Nat → List Nat → List Nat) (dialOK : String → Bool)
    (ackCall : String → CircuitInfo → Except String Bool) (cid : Nat) (orset : ORSetT)
    (hbad : pkToStr orset.PubKey ≠ directoryServerPubKey ∨
      verify orset.PubKey orset.Hash orset.SigR orset.SigS = false) :
    getCircuitFromDServer pkToStr verify genKey rsaEncrypt dialOK ackCall cid
      (Except.ok orset)
      = BuildResult.mk (BuildOutcome.err notTrustedMsg) [] [] := by
  have hcond : pkToStr orset.PubKey ≠ directoryServerPubKey ∨
      ¬verify orset.PubKey orset.Hash orset.SigR orset.SigS := by
    rcases hbad with h | h
    · exact Or.inl h
    · exact Or.inr (by simp [h])
  simp only [getCircuitFromDServer, if_pos hcond]

/-- Witness for the amended C5 at the concrete wrongly-signed node set. -/
theorem trust_failure_aborts_build_witness :
    (pkToStrW orsetBadSigner.PubKey ≠ directoryServerPubKey ∨
      verifyW orsetBadSigner.PubKey orsetBadSigner.Hash orsetBadSigner.SigR
        orsetBadSigner.SigS = false) ∧
    getCircuitFromDServer pkToStrW verifyW (fun i => List.replicate blockSize (i + 1))
      (fun pk sk => pk :: sk) (fun _ => true) (fun _ _ => Except.ok true) 42
      (Except.ok orsetBadSigner)
      = BuildResult.mk (BuildOutcome.err notTrustedMsg) [] [] :=
  ⟨Or.inl (by decide), trust_failure_aborts_build pkToStrW verifyW
    (fun i => List.replicate blockSize (i + 1)) (fun pk sk => pk :: sk)
    (fun _ => true) (fun _ _ => Except.ok true) 42 orsetBadSigner (Or.inl (by decide))⟩

/-- Counterexample to claim C7 as stated: with every heartbeat call failing,
the relay does not tolerate the error and retry on the next tick — it dies
after the first attempt (1 send attempted out of 3 ticks, process dead). -/
theorem heartbeat_failure_fatal_counterexample :
    heartbeatRun (fun _ => some "Could not send heartbeat to directory server") 3
      = (1, true) := by
  decide

theorem heartbeatAux_first_fail (res : Nat → Option String) :
    ∀ (d i0 fuel : Nat), d < fuel → (∀ j, j < d → res (i0 + j) = none) →
      res (i0 + d) ≠ none →
      heartbeatAux res i0 fuel = (d + 1, true) := by
  intro d
  induction d with
  | zero =>
    intro i0 fuel hd hok hfail
    cases fuel with
    | zero => omega
    | succ f =>
      have hf : res i0 ≠ none := by simpa using hfail
      have hs : sendHeartBeat (res i0) = true := by
        simp [sendHeartBeat, handleFatalError, Option.isSome_iff_ne_none, hf]
      simp [heartbeatAux, hs]
  | succ d ih =>
    intro i0 fuel hd hok hfail
    cases fuel with
    | zero => omega
    | succ f =>
      have h0 : res i0 = none := by simpa using hok 0 (by omega)
      have hs : sendHeartBeat (res i0) = false := by
        simp [sendHeartBeat, handleFatalError, h0]
      have hshift : i0 + 1 + d = i0 + (d + 1) := by omega
      have hrec := ih (i0 + 1) f (by omega)
        (fun j hj => by
          have := hok (j + 1) (by omega)
          have hj2 : i0 + 1 + j = i0 + (j + 1) := by omega
          rw [hj2]
          exact this)
        (by rw [hshift]; exact hfail)
      simp [heartbeatAux, hs, hrec]

/-- Claim C7 (amended): failure of a single heartbeat send is fatal to the
relay process — `sendHeartBeat` routes the call's error through
`util.HandleFatalError` — so when the first `i` ticks succeed and tick `i`
fails, the loop performs exactly `i + 1` sends and the process dies; there is
no retry on the next tick. -/
theorem heartbeat_failure_fatal (res : Nat → Option String) (fuel i : Nat)
    (hi : i < fuel) (hok : ∀ j, j < i → res j = none) (hfail : res i ≠ none) :
    heartbeatRun res fuel = (i + 1, true) := by
  unfold heartbeatRun
  exact heartbeatAux_first_fail res i 0 fuel hi
    (fun j hj => by simpa using hok j hj) (by simpa using hfail)

/-- Witness for the amended C7: ticks 0 and 1 succeed, tick 2 fails, so the
relay performs 3 sends of the 5 scheduled ticks and dies. -/
theorem heartbeat_failure_fatal_witness :
    ((2 : Nat) < 5 ∧ (fun j => if j = 2 then some "boom" else none) 2 ≠ none) ∧
    heartbeatRun (fun j => if j = 2 then (some "boom" : Option String) else none) 5
      = (3, true) :=
  ⟨⟨by decide, by decide⟩, heartbeat_failure_fatal
    (fun j => if j = 2 then (some "boom" : Option String) else none) 5 2 (by decide)
    (fun j hj => by
      show (if j = 2 then (some "boom" : Option String) else none) = none
      rw [if_neg (by omega : ¬j = 2)])
    (by decide)⟩
